import Mathlib

/-!
Shallow embedding of the spatial-correction pipeline of the
ICESAT-2HackWeek/data-correction repository (`src/data_correction.ipynb`),
together with theorems settling the frozen claims about its specification.

Modelling conventions:
* A Python/NumPy floating-point value is embedded as `Option ℚ`:
  `none` is the universal missing-value marker (NaN), `some q` a finite
  value represented exactly as a rational.  IEEE NaN propagation through
  arithmetic corresponds to `none` propagation.
* Elementwise NumPy array expressions become `List.map` / `List.zipWith`
  over lists of embedded floats.
* Python exceptions (`ZeroDivisionError`, `KeyError`) are embedded with
  `Except` / explicit skipping, following the control flow of the source.
-/

namespace DataCorrection

/-- A NumPy double: `none` is the missing-value marker (NaN). -/
abbrev PyFloat := Option ℚ

/-- NaN-propagating addition. -/
def oadd : PyFloat → PyFloat → PyFloat
  | some a, some b => some (a + b)
  | _, _ => none

/-- NaN-propagating subtraction. -/
def osub : PyFloat → PyFloat → PyFloat
  | some a, some b => some (a - b)
  | _, _ => none

/-- NaN-propagating multiplication. -/
def omul : PyFloat → PyFloat → PyFloat
  | some a, some b => some (a * b)
  | _, _ => none

/-- NaN-propagating division.  A zero divisor yields ±inf (or NaN) in
NumPy; the rational embedding maps that case to the missing marker.  Every
division in the modelled code paths divides by a nonzero scalar
(`rho_ice = 917`, a positive sample count, or the constant `2`), so the
zero-divisor branch is never reached in the claims below. -/
def odiv : PyFloat → PyFloat → PyFloat
  | some a, some b => if b = 0 then none else some (a / b)
  | _, _ => none

/-- The error outcomes relevant to the claims: `zeroDivisionError` is
Python's built-in exception raised by `0.0 ** (-1)` and `1 / 0.`;
`missingFieldError` and `degenerateConfigurationError` are the error
classes named by the specification's taxonomy (the notebook itself never
raises them). -/
inductive PyError where
  | zeroDivisionError
  | missingFieldError
  | degenerateConfigurationError
deriving DecidableEq

/-- The hydrostatic thickness equation exactly as written in the notebook
(cell 33): `((1/rho_ice - 1/rho_ocean)**(-1)) * ((h_MSL - FAC)/rho_ice)`,
evaluated here by direct substitution of scalars. -/
def thicknessEq (rho_ice rho_ocean h_msl firn_air : ℚ) : ℚ :=
  (1 / rho_ice - 1 / rho_ocean)⁻¹ * ((h_msl - firn_air) / rho_ice)

/-- The scalar coefficient `(1/rho_ice - 1/rho_ocean)**(-1)` of the
notebook's thickness expression, with Python's evaluation semantics:
`1/x` on a zero float raises `ZeroDivisionError`, and so does raising the
float `0.0` to the negative power `-1`.  The notebook contains no guard of
its own around this expression. -/
def computeThicknessCoeff (rho_ice rho_ocean : ℚ) : Except PyError ℚ :=
  if rho_ice = 0 then .error .zeroDivisionError
  else if rho_ocean = 0 then .error .zeroDivisionError
  else if 1 / rho_ice - 1 / rho_ocean = 0 then .error .zeroDivisionError
  else .ok ((1 / rho_ice - 1 / rho_ocean)⁻¹)

/-- Fill-value normalization, from cell 5 of the notebook:
`temp[dataset][temp[dataset] == fill_value] = np.NaN` — every element
equal to the dataset's declared fill value becomes the missing marker,
every other element passes through unchanged. -/
def normalizeFill (xs : List ℚ) (fill_value : ℚ) : List PyFloat :=
  xs.map fun v => if v = fill_value then none else some v

/-- Field extraction as the notebook performs it (cell 5): for each wanted
dataset name it tries `temp[dataset] = np.array(h5f[DS])` and the
`except KeyError: pass` clause silently drops any name absent from the
file.  `avail` is the association list of fields actually present in the
input record. -/
def extractBeam (wanted : List String) (avail : List (String × List ℚ)) :
    List (String × List ℚ) :=
  wanted.filterMap fun f => (avail.lookup f).map fun arr => (f, arr)

/-- Extraction as the specification's error taxonomy describes it: a
required field absent from the input record is reported to the caller as
a `missingFieldError` instead of being skipped.  This definition follows
the spec's words and exists only to be compared with `extractBeam`, the
behaviour of the source. -/
def extractBeamChecked (wanted : List String) (avail : List (String × List ℚ)) :
    Except PyError (List (String × List ℚ)) :=
  if wanted.all fun f => (avail.lookup f).isSome then
    .ok (extractBeam wanted avail)
  else
    .error .missingFieldError

/-- The dataset names the notebook extracts per beam (cell 5). -/
def atl06Fields : List String :=
  ["h_li", "latitude", "longitude", "atl06_quality_summary",
   "tide_load", "dac", "tide_ocean", "geoid_h"]

/-- One beam record of the notebook's list `D6`: parallel per-sample
sequences (cell 5; the derived `x`, `y`, `mask`, `FAC_interp` fields are
filled in by the later cells). -/
structure BeamRecord where
  h_li : List PyFloat
  latitude : List PyFloat
  longitude : List PyFloat
  tide_load : List PyFloat
  dac : List PyFloat
  tide_ocean : List PyFloat
  geoid_h : List PyFloat
  FAC_interp : List PyFloat

/-- One sample of `h_MSL = Di['h_li'] - MDT_corr - Di['geoid_h']`
(cell 33). -/
def sampleHMSL (h_li mdt geoid : PyFloat) : PyFloat :=
  osub (osub h_li mdt) geoid

/-- The per-record height above mean sea level, elementwise over the
parallel sequences, exactly as cell 33 computes it: the scalar MDT
correction and the per-sample geoid height are subtracted from the
land-ice height; no tide term appears. -/
def computeHMSL (r : BeamRecord) (mdt : PyFloat) : List PyFloat :=
  List.zipWith (fun h g => sampleHMSL h mdt g) r.h_li r.geoid_h

/-- One sample of the thickness expression
`coeff * ((h_MSL - Di['FAC_interp'])/rho_ice)` (cell 33), where `coeff`
is the already-computed scalar `(1/rho_ice - 1/rho_ocean)**(-1)`. -/
def sampleThickness (coeff rho_ice : ℚ) (h_msl fac : PyFloat) : PyFloat :=
  omul (some coeff) (odiv (osub h_msl fac) (some rho_ice))

/-- The per-record thickness series of cell 33, elementwise over the
height-above-mean-sea-level series and the interpolated firn air
content. -/
def computeThickness (r : BeamRecord) (mdt : PyFloat) (coeff rho_ice : ℚ) :
    List PyFloat :=
  List.zipWith (sampleThickness coeff rho_ice) (computeHMSL r mdt) r.FAC_interp

/-- `np.mean` over the embedded floats: the plain arithmetic mean, so a
single missing (NaN) sample makes the whole mean missing; the mean of an
empty selection is also missing (NumPy emits a warning and returns NaN). -/
def npMean (xs : List PyFloat) : PyFloat :=
  if xs.length = 0 then none
  else odiv (xs.foldl oadd (some 0)) (some (xs.length : ℚ))

/-- `np.nanmean` over the embedded floats, following NumPy's
implementation: missing entries are replaced by `0` for the sum and the
divisor is the count of non-missing entries; an all-missing selection
yields missing. -/
def npNanmean (xs : List PyFloat) : PyFloat :=
  let n := (xs.filter fun v => v.isSome).length
  if n = 0 then none
  else some ((xs.map fun v => v.getD 0).sum / (n : ℚ))

/-- The `np.where`-style region selection of cells 37 and 39: keep the
grid samples whose longitude and latitude lie strictly inside the
bounding box.  The coordinate grids of the NetCDF files carry no missing
values, so they are embedded as plain rationals. -/
def selectRegion (lons lats : List ℚ) (vals : List PyFloat)
    (lon_lo lon_hi lat_lo lat_hi : ℚ) : List PyFloat :=
  (lons.zip (lats.zip vals)).filterMap fun t =>
    if lon_lo < t.1 ∧ t.1 < lon_hi ∧ lat_lo < t.2.1 ∧ t.2.1 < lat_hi then
      some t.2.2
    else none

/-- The Byrd-region aggregation of cell 37:
`mean_fac[i] = np.mean(mean_fac_[inds])`. -/
def spatialMeanPlain (lons lats : List ℚ) (vals : List PyFloat)
    (lon_lo lon_hi lat_lo lat_hi : ℚ) : PyFloat :=
  npMean (selectRegion lons lats vals lon_lo lon_hi lat_lo lat_hi)

/-- The Larsen-C-region aggregation of cell 39:
`mean_fac[i] = np.nanmean(mean_fac_[inds])`. -/
def spatialMeanNan (lons lats : List ℚ) (vals : List PyFloat)
    (lon_lo lon_hi lat_lo lat_hi : ℚ) : PyFloat :=
  npNanmean (selectRegion lons lats vals lon_lo lon_hi lat_lo lat_hi)

/-- `scipy.integrate.cumtrapz(y, x=x)`: the cumulative trapezoidal rule.
Each consecutive pair of samples contributes the trapezoid
`(x_(k+1) - x_k) * (y_k + y_(k+1)) / 2`, and the running sums of these
trapezoids form the result, whose length is one less than the input
length. -/
def cumtrapz (y x : List PyFloat) : List PyFloat :=
  let pts := y.zip x
  let steps := List.zipWith
    (fun p q => omul (osub q.2 p.2) (odiv (oadd p.1 q.1) (some 2)))
    pts pts.tail
  (steps.scanl oadd (some 0)).tail

/-- Cells 37/39: `mean_smb = mean_smb - np.mean(mean_smb)` (anomaly
removal) followed by `mean_smb = cumtrapz(mean_smb, x=time_smb)`. -/
def removeMeanIntegrate (y x : List PyFloat) : List PyFloat :=
  cumtrapz (y.map fun v => osub v (npMean y)) x

/-- A concrete beam record used to instantiate the per-sample theorems. -/
def rdemo : BeamRecord :=
  ⟨[some 10, none], [], [], [], [], [], [some 2, some 2], [some 1, some 1]⟩

/-!
### The scattered-grid interpolator

Cell 31 calls `interpolate.griddata(xy, mean_fac_byrd, xy_data)` with
scipy's default `method='linear'` and default `fill_value=nan`.  The
definitions below model that call: piecewise-linear barycentric
interpolation on the Delaunay triangulation of the source points (a
triangle of source points is Delaunay when no source point lies strictly
inside its circumcircle; for source sets in general position, as in the
concrete inputs used here, this characterises scipy's triangulation).  A
query outside every triangle — in particular outside the convex hull —
receives the NaN fill value, and NaN source values are not filtered out
by the call, so they propagate into the barycentric combination exactly
as IEEE NaN does.
-/

/-- A planar (polar-stereographic) point. -/
abbrev Point := ℚ × ℚ

/-- Twice the signed area of the triangle `a b c` (positive when
counterclockwise). -/
def det3 (a b c : Point) : ℚ :=
  (b.1 - a.1) * (c.2 - a.2) - (b.2 - a.2) * (c.1 - a.1)

/-- Closed point-in-triangle test: all three barycentric coordinates of
`q` with respect to the nondegenerate triangle `a b c` are nonnegative. -/
def inTriangle (q a b c : Point) : Prop :=
  det3 a b c ≠ 0 ∧ 0 ≤ det3 q b c / det3 a b c
    ∧ 0 ≤ det3 a q c / det3 a b c ∧ 0 ≤ det3 a b q / det3 a b c

instance (q a b c : Point) : Decidable (inTriangle q a b c) := by
  unfold inTriangle; infer_instance

/-- The incircle determinant of computational geometry: for a
counterclockwise triangle `a b c` it is positive exactly when `p` lies
strictly inside the circumcircle. -/
def circumDet (a b c p : Point) : ℚ :=
  let ax := a.1 - p.1
  let ay := a.2 - p.2
  let bx := b.1 - p.1
  let bY := b.2 - p.2
  let cx := c.1 - p.1
  let cy := c.2 - p.2
  (ax * ax + ay * ay) * (bx * cy - bY * cx)
    - (bx * bx + bY * bY) * (ax * cy - ay * cx)
    + (cx * cx + cy * cy) * (ax * bY - ay * bx)

/-- `p` lies strictly inside the circumcircle of `a b c` (orientation
independent: the incircle determinant is multiplied by the triangle's
orientation sign). -/
def strictInCircum (a b c p : Point) : Prop :=
  0 < det3 a b c * circumDet a b c p

instance (a b c p : Point) : Decidable (strictInCircum a b c p) := by
  unfold strictInCircum; infer_instance

/-- The Delaunay criterion: a nondegenerate triangle of source points
none of whose circumcircle's strict interior contains a source point. -/
def isDelaunayTri (pts : List Point) (a b c : Point) : Prop :=
  det3 a b c ≠ 0 ∧ ∀ p ∈ pts, ¬ strictInCircum a b c p

instance (pts : List Point) (a b c : Point) : Decidable (isDelaunayTri pts a b c) := by
  unfold isDelaunayTri; infer_instance

/-- All ordered pairs of distinct positions of a list. -/
def pairsL {α : Type} : List α → List (α × α)
  | [] => []
  | a :: l => (l.map fun b => (a, b)) ++ pairsL l

/-- All ordered triples of distinct positions of a list. -/
def triplesL {α : Type} : List α → List (α × α × α)
  | [] => []
  | a :: l => ((pairsL l).map fun p => (a, p.1, p.2)) ++ triplesL l

/-- A source point together with its (possibly missing) value. -/
abbrev Src := Point × PyFloat

/-- The Delaunay triangle of source points containing the query point,
if any. -/
def griddataTri (srcs : List Src) (q : Point) : Option (Src × Src × Src) :=
  (triplesL srcs).find? fun t =>
    decide (inTriangle q t.1.1 t.2.1.1 t.2.2.1)
      && decide (isDelaunayTri (srcs.map Prod.fst) t.1.1 t.2.1.1 t.2.2.1)

/-- The barycentric combination of the triangle's three source values at
the query point; a missing source value poisons the combination exactly
as IEEE NaN poisons a weighted sum. -/
def baryValue (q : Point) (t : Src × Src × Src) : PyFloat :=
  let d := det3 t.1.1 t.2.1.1 t.2.2.1
  oadd (oadd (omul (some (det3 q t.2.1.1 t.2.2.1 / d)) t.1.2)
      (omul (some (det3 t.1.1 q t.2.2.1 / d)) t.2.1.2))
    (omul (some (det3 t.1.1 t.2.1.1 q / d)) t.2.2.2)

/-- The modelled `interpolate.griddata(..., method='linear')` call of
cell 31: the value interpolated in the containing Delaunay triangle, or
the NaN fill value when no triangle of source points contains the
query. -/
def griddataLinear (srcs : List Src) (q : Point) : PyFloat :=
  match griddataTri srcs q with
  | some t => baryValue q t
  | none => none

/-- The interpolator as the specification describes it: source points
whose value is missing are excluded from the interpolation before
triangulation.  This definition follows the spec's words and exists only
to be compared with `griddataLinear`, the behaviour of the source. -/
def griddataExcluding (srcs : List Src) (q : Point) : PyFloat :=
  griddataLinear (srcs.filter fun s => s.2.isSome) q

/-- The set of source locations of an interpolation call. -/
def srcPoints (srcs : List Src) : Set Point :=
  {p | p ∈ srcs.map Prod.fst}

/-- Concrete source cloud for the convex-hull witness. -/
def srcsDemo : List Src := [((0, 0), some 1), ((1, 0), some 2), ((0, 1), some 3)]

/-- Concrete source cloud with one missing-valued interior point
`(2, 1)`: every triangle of the Delaunay triangulation has it as a
vertex, so queries near it are poisoned. -/
def srcsPoisoned : List Src :=
  [((0, 0), some 0), ((4, 0), some 4), ((2, 4), some 0), ((2, 1), none)]

/-! ### Helper lemmas on the NaN-propagating arithmetic -/

theorem oadd_none_left (x : PyFloat) : oadd none x = none := by cases x <;> rfl

theorem oadd_none_right (x : PyFloat) : oadd x none = none := by cases x <;> rfl

theorem osub_none_left (x : PyFloat) : osub none x = none := by cases x <;> rfl

theorem osub_none_right (x : PyFloat) : osub x none = none := by cases x <;> rfl

theorem omul_none_right (x : PyFloat) : omul x none = none := by cases x <;> rfl

theorem odiv_none_left (x : PyFloat) : odiv none x = none := by cases x <;> rfl

theorem sampleThickness_none (coeff rho_ice : ℚ) {h_msl fac : PyFloat}
    (h : h_msl = none ∨ fac = none) :
    sampleThickness coeff rho_ice h_msl fac = none := by
  rcases h with h | h <;> subst h <;>
    simp [sampleThickness, osub_none_left, osub_none_right, odiv_none_left,
      omul_none_right]

theorem sampleHMSL_none {h_li mdt geoid : PyFloat}
    (h : h_li = none ∨ mdt = none ∨ geoid = none) : sampleHMSL h_li mdt geoid = none := by
  rcases h with h | h | h <;> subst h <;>
    simp [sampleHMSL, osub_none_left, osub_none_right]

theorem foldl_oadd_acc_none (xs : List PyFloat) : xs.foldl oadd none = none := by
  induction xs with
  | nil => rfl
  | cons v xs ih => simpa [oadd_none_left] using ih

theorem foldl_oadd_none {xs : List PyFloat} (h : none ∈ xs) (a : PyFloat) :
    xs.foldl oadd a = none := by
  induction xs generalizing a with
  | nil => cases h
  | cons v xs ih =>
    rcases List.mem_cons.mp h with hv | hv
    · simp [← hv, oadd_none_right, foldl_oadd_acc_none]
    · exact ih hv _

theorem sum_getD_eq (xs : List PyFloat) :
    (xs.map fun v => v.getD 0).sum = (xs.filterMap id).sum := by
  induction xs with
  | nil => rfl
  | cons v xs ih => cases v <;> simp [ih]

theorem count_isSome_eq (xs : List PyFloat) :
    (xs.filter fun v => v.isSome).length = (xs.filterMap id).length := by
  induction xs with
  | nil => rfl
  | cons v xs ih => cases v <;> simp [ih]

/-! ### Claim C1 — the spec's thickness test value -/

/-- C1 counterexample: with rho_ice = 917, rho_ocean = 1028, h_msl = 100
and firn_air_content = 5, the notebook's thickness equation evaluates to
97660/111 ≈ 879.8 m, which is more than 700 m away from the 87.9 m the
claim asserts: the claim is false as stated. -/
theorem thickness_not_approx_87_9 :
    thicknessEq 917 1028 100 5 = 97660 / 111
    ∧ (700 : ℚ) < |thicknessEq 917 1028 100 5 - 879 / 10| := by
  have hval : thicknessEq 917 1028 100 5 = 97660 / 111 := by
    unfold thicknessEq; norm_num
  refine ⟨hval, ?_⟩
  rw [hval, abs_of_nonneg] <;> norm_num

/-- C1 amended: for the configuration rho_ice = 917, rho_ocean = 1028,
h_msl = 100, firn_air_content = 5, the thickness equation evaluates to
exactly 97660/111, which lies between 879 and 880 — approximately
879.8 m, ten times the value printed in the spec. -/
theorem thickness_value_exact :
    thicknessEq 917 1028 100 5 = 97660 / 111
    ∧ (879 : ℚ) < 97660 / 111 ∧ (97660 / 111 : ℚ) < 880 := by
  refine ⟨?_, by norm_num, by norm_num⟩
  unfold thicknessEq; norm_num

/-! ### Claim C2 — the height-above-mean-sea-level equation -/

/-- C2: at every sample where the inputs are present, the notebook
computes `h_msl = h_li - mdt_correction - geoid_height` with a single
scalar MDT correction and the per-sample geoid height; the computation
reads no tide field of the record, so no tide term enters the equation. -/
theorem h_msl_equation (r : BeamRecord) (m : ℚ) :
    (∀ (i : ℕ) hv gv, r.h_li[i]? = some (some hv) → r.geoid_h[i]? = some (some gv) →
      (computeHMSL r (some m))[i]? = some (some (hv - m - gv)))
    ∧ ∀ t1 t2 d1,
        computeHMSL { r with tide_ocean := t1, tide_load := t2, dac := d1 } (some m)
          = computeHMSL r (some m) := by
  constructor
  · intro i hv gv hh hg
    simp [computeHMSL, List.getElem?_zipWith', hh, hg, sampleHMSL, osub]
  · intro t1 t2 d1
    rfl

/-- C2 witness at a concrete record: `10 - (-1.4) - 2 = 9.4`. -/
theorem h_msl_equation_witness :
    (computeHMSL rdemo (some (-7/5)))[0]? = some (some (47/5)) := by
  have h := (h_msl_equation rdemo (-7/5)).1 0 10 2 rfl rfl
  rw [h]; norm_num

/-! ### Claim C3 — missing-value propagation into thickness -/

/-- C3: per sample, the thickness of cell 33 is computed independently at
each index from that index's inputs (first conjunct: the whole record is
produced, no whole-record failure), and whenever any of `h_li`, the MDT
correction, `geoid_h` or the interpolated firn air content is the missing
marker at a sample, the thickness at that sample is the missing marker
(second conjunct). -/
theorem thickness_missing_propagation (r : BeamRecord) (mdt : PyFloat)
    (coeff rho_ice : ℚ) :
    (∀ (i : ℕ) hv gv fv, r.h_li[i]? = some hv → r.geoid_h[i]? = some gv →
      r.FAC_interp[i]? = some fv →
      (computeThickness r mdt coeff rho_ice)[i]?
        = some (sampleThickness coeff rho_ice (sampleHMSL hv mdt gv) fv))
    ∧ (∀ (i : ℕ) hv gv fv, r.h_li[i]? = some hv → r.geoid_h[i]? = some gv →
      r.FAC_interp[i]? = some fv →
      (hv = none ∨ mdt = none ∨ gv = none ∨ fv = none) →
      (computeThickness r mdt coeff rho_ice)[i]? = some none) := by
  have hpoint : ∀ (i : ℕ) hv gv fv, r.h_li[i]? = some hv → r.geoid_h[i]? = some gv →
      r.FAC_interp[i]? = some fv →
      (computeThickness r mdt coeff rho_ice)[i]?
        = some (sampleThickness coeff rho_ice (sampleHMSL hv mdt gv) fv) := by
    intro i hv gv fv hh hg hf
    simp [computeThickness, computeHMSL, List.getElem?_zipWith', hh, hg, hf]
  refine ⟨hpoint, ?_⟩
  intro i hv gv fv hh hg hf hmiss
  rw [hpoint i hv gv fv hh hg hf]
  rcases hmiss with h | h | h | h
  · rw [sampleHMSL_none (Or.inl h), sampleThickness_none coeff rho_ice (Or.inl rfl)]
  · rw [sampleHMSL_none (Or.inr (Or.inl h)), sampleThickness_none coeff rho_ice (Or.inl rfl)]
  · rw [sampleHMSL_none (Or.inr (Or.inr h)), sampleThickness_none coeff rho_ice (Or.inl rfl)]
  · rw [sampleThickness_none coeff rho_ice (Or.inr h)]

/-- C3 witness on a concrete record whose second `h_li` sample is
missing: that sample's thickness is missing while the first sample is
still computed (to `(942676/111) * ((10 - (-1.4) - 2 - 1)/917) =
14392/185`). -/
theorem thickness_missing_propagation_witness :
    (computeThickness rdemo (some (-7/5)) (942676/111) 917)[1]? = some none
    ∧ (computeThickness rdemo (some (-7/5)) (942676/111) 917)[0]?
        = some (some (14392/185)) := by
  have h := thickness_missing_propagation rdemo (some (-7/5)) (942676/111) 917
  constructor
  · exact h.2 1 none (some 2) (some 1) rfl rfl rfl (Or.inl rfl)
  · have h0 := h.1 0 (some 10) (some 2) (some 1) rfl rfl rfl
    rw [h0]
    simp [sampleThickness, sampleHMSL, osub, odiv, omul]
    norm_num

/-! ### Claim C4 — equal densities -/

/-- C4 counterexample: with rho_ice = rho_ocean = 917 the notebook's
unguarded expression `(1/rho_ice - 1/rho_ocean)**(-1)` raises Python's
built-in `ZeroDivisionError` (`0.0` to a negative power), which is not
the `DegenerateConfigurationError` the claim requires. -/
theorem thickness_coeff_cex :
    computeThicknessCoeff 917 917 = .error .zeroDivisionError
    ∧ (PyError.zeroDivisionError == PyError.degenerateConfigurationError) = false := by
  constructor
  · unfold computeThicknessCoeff; norm_num
  · rfl

/-- C4 amended: the thickness computation has no explicit guard; for every
configuration with rho_ice = rho_ocean the scalar coefficient computation
raises an unhandled `ZeroDivisionError` (so the run aborts, and no silent
infinity is produced), while the reference configuration 917/1028
succeeds with the exact coefficient 942676/111. -/
theorem thickness_coeff_equal_densities :
    (∀ rho : ℚ, computeThicknessCoeff rho rho = .error .zeroDivisionError)
    ∧ computeThicknessCoeff 917 1028 = .ok (942676 / 111) := by
  constructor
  · intro rho
    unfold computeThicknessCoeff
    rcases eq_or_ne rho 0 with h | h
    · simp [h]
    · simp [h, sub_self]
  · unfold computeThicknessCoeff; norm_num

/-! ### Claim C5 — absent fields during extraction -/

/-- C5 counterexample: extracting the wanted fields `h_li` and `geoid_h`
from a record that lacks `geoid_h` succeeds and silently omits the absent
field — no error reaches the caller — whereas the specification's checked
extraction would report `missingFieldError`. -/
theorem extract_silent_skip_cex :
    extractBeam ["h_li", "geoid_h"] [("h_li", [1])] = [("h_li", [1])]
    ∧ (extractBeam ["h_li", "geoid_h"] [("h_li", [1])]).lookup "geoid_h" = none
    ∧ extractBeamChecked ["h_li", "geoid_h"] [("h_li", [1])]
        = .error .missingFieldError := by
  refine ⟨?_, ?_, ?_⟩
  · rfl
  · rfl
  · unfold extractBeamChecked
    simp [List.lookup]

/-- C5 amended: the `except KeyError: pass` clause makes extraction skip
absent fields silently — an absent field is simply missing from the
extracted record while every present wanted field is extracted with its
array; no `MissingFieldError` (or any other error) is raised. -/
theorem extract_skip_and_keep (wanted : List String)
    (avail : List (String × List ℚ)) :
    (∀ f, avail.lookup f = none → (extractBeam wanted avail).lookup f = none)
    ∧ (∀ g arr, g ∈ wanted → avail.lookup g = some arr →
        (extractBeam wanted avail).lookup g = some arr) := by
  constructor
  · intro f hf
    induction wanted with
    | nil => rfl
    | cons w ws ih =>
      rw [extractBeam, List.filterMap_cons]
      cases hw : avail.lookup w with
      | none => exact ih
      | some arr =>
        have hfw : (f == w) = false := by
          refine beq_eq_false_iff_ne.mpr fun hfw => ?_
          rw [hfw, hw] at hf
          cases hf
        rw [Option.map_some']
        show List.lookup f ((w, arr) :: extractBeam ws avail) = none
        simp only [List.lookup_cons, hfw]
        exact ih
  · intro g arr hg hga
    induction wanted with
    | nil => cases hg
    | cons w ws ih =>
      rw [extractBeam, List.filterMap_cons]
      cases hw : avail.lookup w with
      | none =>
        rcases List.mem_cons.mp hg with hgw | hgw
        · rw [hgw, hw] at hga; cases hga
        · exact ih hgw
      | some arr2 =>
        rw [Option.map_some']
        show List.lookup g ((w, arr2) :: extractBeam ws avail) = some arr
        rcases eq_or_ne g w with hgw | hgw
        · subst hgw
          rw [hw] at hga
          simp only [List.lookup_cons, beq_self_eq_true]
          exact hga
        · have hgw' : (g == w) = false := beq_eq_false_iff_ne.mpr hgw
          simp only [List.lookup_cons, hgw']
          have hmem : g ∈ ws := by
            rcases List.mem_cons.mp hg with h | h
            · exact absurd h hgw
            · exact h
          exact ih hmem

/-- C5 amended witness at a concrete record: the absent `h_li` is skipped
while the present `latitude` is extracted. -/
theorem extract_skip_and_keep_witness :
    (extractBeam ["h_li", "latitude"] [("latitude", [2])]).lookup "h_li" = none
    ∧ (extractBeam ["h_li", "latitude"] [("latitude", [2])]).lookup "latitude"
        = some [2] := by
  refine ⟨(extract_skip_and_keep _ _).1 "h_li" rfl,
    (extract_skip_and_keep _ _).2 "latitude" [2] (by simp) rfl⟩

/-! ### Geometry helper lemmas for the interpolator -/

theorem det3_sum (q a b c : Point) :
    det3 q b c + det3 a q c + det3 a b q = det3 a b c := by
  unfold det3; ring

theorem det3_combo_fst (q a b c : Point) :
    det3 q b c * a.1 + det3 a q c * b.1 + det3 a b q * c.1 = det3 a b c * q.1 := by
  unfold det3; ring

theorem det3_combo_snd (q a b c : Point) :
    det3 q b c * a.2 + det3 a q c * b.2 + det3 a b q * c.2 = det3 a b c * q.2 := by
  unfold det3; ring

theorem pairsL_mem {α : Type} {l : List α} {p : α × α} (h : p ∈ pairsL l) :
    p.1 ∈ l ∧ p.2 ∈ l := by
  induction l with
  | nil => cases h
  | cons a t ih =>
    rw [pairsL, List.mem_append] at h
    rcases h with h | h
    · rcases List.mem_map.mp h with ⟨b, hb, rfl⟩
      exact ⟨List.mem_cons_self a t, List.mem_cons_of_mem a hb⟩
    · rcases ih h with ⟨h1, h2⟩
      exact ⟨List.mem_cons_of_mem a h1, List.mem_cons_of_mem a h2⟩

theorem triplesL_mem {α : Type} {l : List α} {t : α × α × α} (h : t ∈ triplesL l) :
    t.1 ∈ l ∧ t.2.1 ∈ l ∧ t.2.2 ∈ l := by
  induction l with
  | nil => cases h
  | cons a s ih =>
    rw [triplesL, List.mem_append] at h
    rcases h with h | h
    · rcases List.mem_map.mp h with ⟨p, hp, rfl⟩
      rcases pairsL_mem hp with ⟨h1, h2⟩
      exact ⟨List.mem_cons_self a s, List.mem_cons_of_mem a h1,
        List.mem_cons_of_mem a h2⟩
    · rcases ih h with ⟨h1, h2, h3⟩
      exact ⟨List.mem_cons_of_mem a h1, List.mem_cons_of_mem a h2,
        List.mem_cons_of_mem a h3⟩

/-- A point inside a triangle of points of `S` is in the convex hull of
`S`: the barycentric coordinates are the convex-combination weights. -/
theorem mem_convexHull_of_inTriangle {S : Set Point} {q a b c : Point}
    (ha : a ∈ S) (hb : b ∈ S) (hc : c ∈ S) (h : inTriangle q a b c) :
    q ∈ convexHull ℚ S := by
  obtain ⟨hd, h1, h2, h3⟩ := h
  set w : Fin 3 → ℚ := ![det3 q b c / det3 a b c, det3 a q c / det3 a b c,
    det3 a b q / det3 a b c] with hwdef
  set z : Fin 3 → Point := ![a, b, c] with hzdef
  have hw0 : ∀ i ∈ Finset.univ, 0 ≤ w i := by
    intro i _
    fin_cases i
    · exact h1
    · exact h2
    · exact h3
  have hsum : ∑ i, w i = 1 := by
    rw [Fin.sum_univ_three]
    show det3 q b c / det3 a b c + det3 a q c / det3 a b c
      + det3 a b q / det3 a b c = 1
    rw [div_add_div_same, div_add_div_same, det3_sum, div_self hd]
  have hzS : ∀ i ∈ Finset.univ, z i ∈ S := by
    intro i _
    fin_cases i
    · exact ha
    · exact hb
    · exact hc
  have hmass := Finset.centerMass_mem_convexHull Finset.univ hw0
    (by rw [hsum]; exact one_pos) hzS
  have hcm : Finset.univ.centerMass w z = q := by
    rw [Finset.centerMass_eq_of_sum_1 _ _ hsum, Fin.sum_univ_three]
    show (det3 q b c / det3 a b c) • a + (det3 a q c / det3 a b c) • b
      + (det3 a b q / det3 a b c) • c = q
    apply Prod.ext
    · rw [Prod.fst_add, Prod.fst_add, Prod.smul_fst, Prod.smul_fst, Prod.smul_fst,
        smul_eq_mul, smul_eq_mul, smul_eq_mul]
      field_simp
      linear_combination det3_combo_fst q a b c
    · rw [Prod.snd_add, Prod.snd_add, Prod.smul_snd, Prod.smul_snd, Prod.smul_snd,
        smul_eq_mul, smul_eq_mul, smul_eq_mul]
      field_simp
      linear_combination det3_combo_snd q a b c
  rw [hcm] at hmass
  exact hmass

/-- Evaluation of the modelled griddata call on the poisoned source
cloud: the containing Delaunay triangle at the query `(2, 2)` is
`(0,0), (2,4), (2,1)`, whose last vertex carries the missing value. -/
theorem griddataTri_poisoned_eval :
    griddataTri srcsPoisoned (2, 2)
      = some (((0, 0), some 0), ((2, 4), some 0), ((2, 1), none)) := by
  have hmap : srcsPoisoned.map Prod.fst = [(0, 0), (4, 0), (2, 4), (2, 1)] := rfl
  have hndel_abc : ¬ isDelaunayTri [(0, 0), (4, 0), (2, 4), (2, 1)] (0, 0) (4, 0) (2, 4) := by
    intro h
    exact h.2 (2, 1) (by simp) (by norm_num [strictInCircum, det3, circumDet])
  have hntri_abd : ¬ inTriangle (2, 2) (0, 0) (4, 0) (2, 1) := by
    intro h
    have h2 := h.2.1
    norm_num [det3] at h2
  have htri_acd : inTriangle (2, 2) (0, 0) (2, 4) (2, 1) := by
    norm_num [inTriangle, det3]
  have hdel_acd : isDelaunayTri [(0, 0), (4, 0), (2, 4), (2, 1)] (0, 0) (2, 4) (2, 1) := by
    refine ⟨by norm_num [det3], ?_⟩
    intro p hp
    fin_cases hp <;> norm_num [strictInCircum, det3, circumDet]
  have hb1 : (decide (inTriangle (2, 2) (0, 0) (4, 0) (2, 4))
      && decide (isDelaunayTri [(0, 0), (4, 0), (2, 4), (2, 1)] (0, 0) (4, 0) (2, 4)))
        = false := by
    rw [decide_eq_false hndel_abc, Bool.and_false]
  have hb2 : (decide (inTriangle (2, 2) (0, 0) (4, 0) (2, 1))
      && decide (isDelaunayTri [(0, 0), (4, 0), (2, 4), (2, 1)] (0, 0) (4, 0) (2, 1)))
        = false := by
    rw [decide_eq_false hntri_abd, Bool.false_and]
  have hb3 : (decide (inTriangle (2, 2) (0, 0) (2, 4) (2, 1))
      && decide (isDelaunayTri [(0, 0), (4, 0), (2, 4), (2, 1)] (0, 0) (2, 4) (2, 1)))
        = true := by
    rw [decide_eq_true htri_acd, decide_eq_true hdel_acd]
    rfl
  rw [griddataTri, hmap]
  simp only [srcsPoisoned, triplesL, pairsL, List.map_cons, List.map_nil,
    List.cons_append, List.nil_append, List.append_nil, List.find?_cons,
    hb1, hb2, hb3]

/-- Evaluation of the spec-described variant on the poisoned cloud: with
the missing-valued source point excluded, the query `(2, 2)` lies in the
(now Delaunay) triangle of the three valid points and interpolates to
`1`. -/
theorem griddataExcluding_poisoned_eval :
    griddataExcluding srcsPoisoned (2, 2) = some 1 := by
  have htri : inTriangle (2, 2) (0, 0) (4, 0) (2, 4) := by
    norm_num [inTriangle, det3]
  have hdel : isDelaunayTri [(0, 0), (4, 0), (2, 4)] (0, 0) (4, 0) (2, 4) := by
    refine ⟨by norm_num [det3], ?_⟩
    intro p hp
    fin_cases hp <;> norm_num [strictInCircum, det3, circumDet]
  have hb : (decide (inTriangle (2, 2) (0, 0) (4, 0) (2, 4))
      && decide (isDelaunayTri [(0, 0), (4, 0), (2, 4)] (0, 0) (4, 0) (2, 4)))
        = true := by
    rw [decide_eq_true htri, decide_eq_true hdel]
    rfl
  have hfilter : srcsPoisoned.filter (fun s => s.2.isSome)
      = ([((0, 0), some 0), ((4, 0), some 4), ((2, 4), some 0)] : List Src) := rfl
  have hmap : List.map Prod.fst
        ([((0, 0), some 0), ((4, 0), some 4), ((2, 4), some 0)] : List Src)
      = ([(0, 0), (4, 0), (2, 4)] : List Point) := rfl
  rw [griddataExcluding, hfilter, griddataLinear, griddataTri, hmap]
  simp only [triplesL, pairsL, List.map_cons, List.map_nil, List.cons_append,
    List.nil_append, List.append_nil, List.find?_cons, hb]
  norm_num [baryValue, det3, oadd, omul]

/-! ### Claim C6 — missing source values in the interpolation -/

/-- C6 counterexample: for the source cloud `srcsPoisoned` (three valid
points and one missing-valued point at `(2, 1)`) and query `(2, 2)`, the
notebook's unfiltered griddata call returns the missing marker, while the
interpolation that excludes the missing source point — the behaviour the
claim asserts — returns `1`: the missing source value does poison the
result at a nearby query point. -/
theorem griddata_missing_poisons_cex :
    griddataLinear srcsPoisoned (2, 2) = none
    ∧ griddataExcluding srcsPoisoned (2, 2) = some 1 := by
  constructor
  · rw [griddataLinear, griddataTri_poisoned_eval]
    rfl
  · exact griddataExcluding_poisoned_eval

/-- C6 amended: the notebook passes the source values to
`interpolate.griddata` unfiltered; whenever the Delaunay triangle
containing a query has a vertex whose source value is missing, the
interpolated value at that query is missing. -/
theorem griddata_poisoned_triangle (srcs : List Src) (q : Point)
    (t : Src × Src × Src) (hf : griddataTri srcs q = some t)
    (hmiss : t.1.2 = none ∨ t.2.1.2 = none ∨ t.2.2.2 = none) :
    griddataLinear srcs q = none := by
  have heq : griddataLinear srcs q = baryValue q t := by
    rw [griddataLinear, hf]
  rw [heq]
  obtain ⟨⟨a, va⟩, ⟨b, vb⟩, ⟨c, vc⟩⟩ := t
  rcases hmiss with h | h | h <;> simp only at h <;> subst h <;>
    simp [baryValue, omul_none_right, oadd_none_left, oadd_none_right]

/-- C6 amended witness: at the concrete poisoned cloud the selected
triangle's third vertex is missing-valued and the result is missing. -/
theorem griddata_poisoned_triangle_witness :
    griddataLinear srcsPoisoned (2, 2) = none :=
  griddata_poisoned_triangle srcsPoisoned (2, 2)
    (((0, 0), some 0), ((2, 4), some 0), ((2, 1), none))
    griddataTri_poisoned_eval (Or.inr (Or.inr rfl))

/-! ### Claim C7 — no extrapolation outside the convex hull -/

/-- C7: a query point outside the convex hull of the source locations is
contained in no triangle of source points, so the modelled griddata call
returns the missing marker — the NaN fill value — rather than an
extrapolated number. -/
theorem griddata_outside_hull (srcs : List Src) (q : Point)
    (h : q ∉ convexHull ℚ (srcPoints srcs)) : griddataLinear srcs q = none := by
  rw [griddataLinear]
  cases hf : griddataTri srcs q with
  | none => rfl
  | some t =>
    exfalso
    apply h
    rw [griddataTri] at hf
    have hp := List.find?_some hf
    have hmem := List.mem_of_find?_eq_some hf
    rw [Bool.and_eq_true] at hp
    have htri : inTriangle q t.1.1 t.2.1.1 t.2.2.1 := of_decide_eq_true hp.1
    obtain ⟨h1, h2, h3⟩ := triplesL_mem hmem
    exact mem_convexHull_of_inTriangle
      (List.mem_map_of_mem Prod.fst h1)
      (List.mem_map_of_mem Prod.fst h2)
      (List.mem_map_of_mem Prod.fst h3) htri

/-- C7 witness: the query `(5, 5)` lies outside the convex hull of the
three source points of `srcsDemo` (all of which satisfy `x ≤ 1`), and the
modelled griddata call returns the missing marker there. -/
theorem griddata_outside_hull_witness : griddataLinear srcsDemo (5, 5) = none := by
  apply griddata_outside_hull
  intro hq
  have hsub : srcPoints srcsDemo ⊆ {p : Point | p.1 ≤ 1} := by
    intro p hp
    simp only [srcPoints, srcsDemo, List.map_cons, List.map_nil, Set.mem_setOf_eq,
      List.mem_cons, List.not_mem_nil, or_false] at hp
    rcases hp with rfl | rfl | rfl <;> norm_num
  have hconv : Convex ℚ {p : Point | p.1 ≤ 1} :=
    convex_halfSpace_le ⟨fun _ _ => rfl, fun _ _ => rfl⟩ 1
  have h5 := convexHull_min hsub hconv hq
  norm_num at h5

/-! ### Claim C8 — spatial mean over a region -/

/-- C8 counterexample: the Byrd-region aggregation of cell 37 uses
`np.mean`, so for a region whose selected samples are
`[1.0, missing, 3.0]` it returns the missing marker instead of the mean
2.0 over the valid samples that the claim requires. -/
theorem spatial_mean_cex :
    spatialMeanPlain [150, 150, 150] [-80, -80, -80] [some 1, none, some 3]
      148 162 (-81) (-79) = none
    ∧ ((none : PyFloat) == some 2) = false := by
  constructor
  · have hsel : selectRegion [150, 150, 150] [-80, -80, -80]
        [some 1, none, some 3] 148 162 (-81) (-79)
        = [some 1, none, some 3] := by
      unfold selectRegion
      norm_num [List.filterMap_cons]
    unfold spatialMeanPlain
    rw [hsel]
    unfold npMean
    rw [foldl_oadd_none (by simp) (some 0)]
    simp [odiv_none_left]
  · rfl

/-- C8 amended: only the Larsen-C-region aggregation (cell 39,
`np.nanmean`) ignores missing values — it averages the valid samples of
the selected region and yields missing exactly when the region has no
valid sample; the Byrd-region aggregation (cell 37, `np.mean`) instead
yields missing as soon as any selected sample is missing. -/
theorem spatial_mean_variants (lons lats : List ℚ) (vals : List PyFloat)
    (lon_lo lon_hi lat_lo lat_hi : ℚ) :
    ((selectRegion lons lats vals lon_lo lon_hi lat_lo lat_hi).filterMap id = [] →
      spatialMeanNan lons lats vals lon_lo lon_hi lat_lo lat_hi = none)
    ∧ (∀ valid, (selectRegion lons lats vals lon_lo lon_hi lat_lo lat_hi).filterMap id
          = valid → valid ≠ [] →
        spatialMeanNan lons lats vals lon_lo lon_hi lat_lo lat_hi
          = some (valid.sum / (valid.length : ℚ)))
    ∧ (none ∈ selectRegion lons lats vals lon_lo lon_hi lat_lo lat_hi →
        spatialMeanPlain lons lats vals lon_lo lon_hi lat_lo lat_hi = none) := by
  set sub := selectRegion lons lats vals lon_lo lon_hi lat_lo lat_hi with hsub
  refine ⟨?_, ?_, ?_⟩
  · intro hempty
    unfold spatialMeanNan npNanmean
    rw [← hsub, count_isSome_eq, hempty]
    simp
  · intro valid hvalid hne
    unfold spatialMeanNan npNanmean
    rw [← hsub, count_isSome_eq, sum_getD_eq, hvalid]
    have hlen : valid.length ≠ 0 := fun h => hne (List.length_eq_zero.mp h)
    simp [hlen]
  · intro hmem
    unfold spatialMeanPlain npMean
    rw [← hsub, foldl_oadd_none hmem (some 0)]
    have hne : sub.length ≠ 0 := by
      intro h
      rw [List.length_eq_zero.mp h] at hmem
      cases hmem
    simp [hne, odiv_none_left]

/-- C8 amended witness: for the selected samples `[1.0, missing, 3.0]` the
`np.nanmean` aggregation gives 2.0 and the `np.mean` one gives missing. -/
theorem spatial_mean_variants_witness :
    spatialMeanNan [150, 150, 150] [-80, -80, -80] [some 1, none, some 3]
      148 162 (-81) (-79) = some 2
    ∧ spatialMeanPlain [150, 150, 150] [-80, -80, -80] [some 1, none, some 3]
      148 162 (-81) (-79) = none := by
  have h := spatial_mean_variants [150, 150, 150] [-80, -80, -80]
    [some 1, none, some 3] 148 162 (-81) (-79)
  have hsel : selectRegion [150, 150, 150] [-80, -80, -80]
      [some 1, none, some 3] 148 162 (-81) (-79) = [some 1, none, some 3] := by
    unfold selectRegion
    norm_num [List.filterMap_cons]
  constructor
  · have h2 := h.2.1 [1, 3] (by rw [hsel]; rfl) (by simp)
    rw [h2]
    norm_num
  · exact h.2.2 (by rw [hsel]; simp)

/-! ### Claim C9 — fill-value normalization -/

/-- C9: `normalize` replaces exactly the elements equal to the fill value
by the missing marker, keeps every other element unchanged, and preserves
the array length. -/
theorem normalize_fill_spec (xs : List ℚ) (fill_value : ℚ) :
    (∀ (i : ℕ) v, xs[i]? = some v →
      (normalizeFill xs fill_value)[i]?
        = some (if v = fill_value then none else some v))
    ∧ (normalizeFill xs fill_value).length = xs.length := by
  constructor
  · intro i v hv
    simp [normalizeFill, List.getElem?_map, hv]
  · simp [normalizeFill]

/-- C9 witness: `[1.0, -9999.0, 3.0]` with fill value `-9999.0` becomes
`[1.0, missing, 3.0]`, same length. -/
theorem normalize_fill_spec_witness :
    (normalizeFill [1, -9999, 3] (-9999))[1]? = some none
    ∧ (normalizeFill [1, -9999, 3] (-9999))[0]? = some (some 1)
    ∧ (normalizeFill [1, -9999, 3] (-9999)).length = 3 := by
  have h := normalize_fill_spec [1, -9999, 3] (-9999)
  refine ⟨?_, ?_, h.2⟩
  · have h1 := h.1 1 (-9999) rfl
    simpa using h1
  · have h0 := h.1 0 1 rfl
    norm_num at h0
    simpa using h0

/-! ### Claim C10 — cumulative trapezoidal integration -/

/-- C10: `cumtrapz` returns a series one element shorter than the input
(the first interval is consumed), the anomaly pipeline (mean removal
followed by `cumtrapz`) keeps that length, and for the constant series
1.0 over three unit time steps the mean-removed cumulative series is all
zeros. -/
theorem cumtrapz_spec (y x : List PyFloat) (h : y.length = x.length) :
    (cumtrapz y x).length = y.length - 1
    ∧ (removeMeanIntegrate y x).length = y.length - 1
    ∧ removeMeanIntegrate [some 1, some 1, some 1] [some 0, some 1, some 2]
        = [some 0, some 0] := by
  have hlen : ∀ z : List PyFloat, z.length = y.length →
      (cumtrapz z x).length = y.length - 1 := by
    intro z hz
    unfold cumtrapz
    rw [List.length_tail, List.length_scanl, List.length_zipWith,
      List.length_tail, List.length_zip, hz, h]
    omega
  refine ⟨hlen y rfl, ?_, ?_⟩
  · rw [removeMeanIntegrate]
    exact hlen _ (by simp)
  · norm_num [removeMeanIntegrate, cumtrapz, npMean, oadd, osub, omul, odiv,
      List.scanl, List.foldl, List.zipWith, List.zip]

/-- C10 witness: the constant series 1.0 over time points 0, 1, 2 — the
result has length 2 = 3 - 1 and is all zeros. -/
theorem cumtrapz_spec_witness :
    (cumtrapz [some 1, some 1, some 1] [some 0, some 1, some 2]).length = 2
    ∧ removeMeanIntegrate [some 1, some 1, some 1] [some 0, some 1, some 2]
        = [some 0, some 0] := by
  have h := cumtrapz_spec [some 1, some 1, some 1] [some 0, some 1, some 2] rfl
  exact ⟨h.1, h.2.2⟩

end DataCorrection
